import Mathlib

set_option maxRecDepth 100000

/-!
Verification of the `shuffled` radio-automation daemon (Rust sources in
`src/`).  The development shallowly embeds the playout control engine:

* the UTF-8 string/byte bridge (`String::as_bytes`, `str::from_utf8`),
* the ID3v1.1 codec (`utils.rs`: `ID3::from_stream`, `ID3::to_stream`),
* playlists and the reconciliation algorithm (`server.rs`: `Playlist`,
  `PlaylistQueue::merge_with`),
* the m3u8 loading pipeline (`parse_m3u8_playlist`, `read_m3u8_files`),
* the RPC layer (`try_parse_request`, `process_request`,
  `process_connection`).

Bytes are modelled as `Nat` (values < 256 where produced by the embedded
writers), Rust `String`/`PathBuf` values as Lean `String`s (a `PathBuf`
in this program is always built from UTF-8 text), `HashMap`s as
association lists, and the ambient effects (filesystem, RNG, clock, the
external `json` crate, TTS pipeline) as explicit function parameters.
-/

/-! ### UTF-8 encoding and decoding

Models Rust's `String::as_bytes` / `str::from_utf8` (strict validation,
including rejection of overlong forms, surrogates and out-of-range
codepoints). -/

/-- Encodes a single unicode scalar value into its UTF-8 bytes. -/
def utf8EncodeChar (c : Char) : List Nat :=
  let n := c.toNat
  if n < 0x80 then [n]
  else if n < 0x800 then [0xC0 + n / 64, 0x80 + n % 64]
  else if n < 0x10000 then [0xE0 + n / 4096, 0x80 + (n / 64) % 64, 0x80 + n % 64]
  else [0xF0 + n / 262144, 0x80 + (n / 4096) % 64, 0x80 + (n / 64) % 64, 0x80 + n % 64]

/-- Encodes a string into its UTF-8 byte sequence (Rust `String::as_bytes`). -/
def strBytes (s : String) : List Nat :=
  s.data.flatMap utf8EncodeChar

/-- True for UTF-8 continuation bytes `0x80..0xBF`. -/
def isCont (b : Nat) : Bool :=
  0x80 ≤ b && b ≤ 0xBF

/-- Decodes a UTF-8 byte sequence into characters, returning `none` on any
encoding error (Rust `str::from_utf8` is strict in the same way). -/
def utf8DecodeAux : List Nat → Option (List Char)
  | [] => some []
  | b :: rest =>
    if b < 0x80 then
      (utf8DecodeAux rest).map (fun cs => Char.ofNat b :: cs)
    else if 0xC2 ≤ b && b ≤ 0xDF then
      match rest with
      | b2 :: rest2 =>
        if isCont b2 then
          (utf8DecodeAux rest2).map (fun cs => Char.ofNat ((b - 0xC0) * 64 + (b2 - 0x80)) :: cs)
        else none
      | _ => none
    else if 0xE0 ≤ b && b ≤ 0xEF then
      match rest with
      | b2 :: b3 :: rest3 =>
        let lowOk :=
          if b = 0xE0 then 0xA0 ≤ b2 && b2 ≤ 0xBF
          else if b = 0xED then 0x80 ≤ b2 && b2 ≤ 0x9F
          else isCont b2
        if lowOk && isCont b3 then
          (utf8DecodeAux rest3).map
            (fun cs => Char.ofNat ((b - 0xE0) * 4096 + (b2 - 0x80) * 64 + (b3 - 0x80)) :: cs)
        else none
      | _ => none
    else if 0xF0 ≤ b && b ≤ 0xF4 then
      match rest with
      | b2 :: b3 :: b4 :: rest4 =>
        let lowOk :=
          if b = 0xF0 then 0x90 ≤ b2 && b2 ≤ 0xBF
          else if b = 0xF4 then 0x80 ≤ b2 && b2 ≤ 0x8F
          else isCont b2
        if lowOk && isCont b3 && isCont b4 then
          (utf8DecodeAux rest4).map
            (fun cs =>
              Char.ofNat ((b - 0xF0) * 262144 + (b2 - 0x80) * 4096 + (b3 - 0x80) * 64 + (b4 - 0x80)) :: cs)
        else none
      | _ => none
    else none

/-- Decodes UTF-8 bytes into a string (Rust `str::from_utf8`). -/
def utf8Decode (bytes : List Nat) : Option String :=
  (utf8DecodeAux bytes).map String.mk

/-! ### A model of the `json` crate's value type

Only the operations used by `server.rs` are modelled: `is_object`,
`has_key`, indexing (which yields `Null` for a missing key or a
non-object), and `as_str`.  The crate's parser itself (`json::parse`) is
an external dependency and is passed around as a function parameter. -/

inductive Json where
  | null : Json
  | jbool : Bool → Json
  | num : Int → Json
  | str : String → Json
  | arr : List Json → Json
  | obj : List (String × Json) → Json

/-- Model of `JsonValue::is_object`. -/
def Json.isObject : Json → Bool
  | .obj _ => true
  | _ => false

/-- Model of `JsonValue::has_key`. -/
def Json.hasKey : Json → String → Bool
  | .obj fields, k => fields.any (fun p => p.1 = k)
  | _, _ => false

/-- Model of `JsonValue`'s `Index` impl: the value at the key, or `Null`
for a missing key or a non-object receiver. -/
def Json.idx : Json → String → Json
  | .obj fields, k => ((fields.find? (fun p => p.1 = k)).map Prod.snd).getD .null
  | _, _ => .null

/-- Model of `JsonValue::as_str`. -/
def Json.asStr : Json → Option String
  | .str s => some s
  | _ => none

/-! ### The ID3v1.1 codec (`utils.rs`)

`ID3Genres` is a 192-entry enumeration plus `Unknown`; since the claims
never inspect individual genres and the Rust genre table maps each code
`< 192` to a distinct variant, a genre is represented here by its table
index (`0..191`), with `192` standing for `Unknown`.  `From<u8>` and
`From<ID3Genres> for u8` then become the two conversions below, which
agree with composing the Rust table lookups. -/

/-- Model of `impl From<u8> for ID3Genres`: codes `< 192` index the genre
table, anything else is `Unknown` (represented as `192`). -/
def genreOfU8 (b : Nat) : Nat :=
  if b < 192 then b else 192

/-- Model of `impl From<ID3Genres> for u8`: a table genre encodes as its
index, `Unknown` (not in the table) falls back to `255`. -/
def genreToU8 (g : Nat) : Nat :=
  if g < 192 then g else 255

/-- Errors from `ID3::from_stream` (`utils.rs` `ID3LoadError`).  The model
reads from an in-memory 128-byte block, so `ioError` stands for the
seek/`read_exact` failures of the stream version (here: a block that is
not exactly 128 bytes). -/
inductive ID3LoadError where
  | noID3Tag : ID3LoadError
  | ioError : ID3LoadError
  | decodeError : ID3LoadError
  | yearError : String → ID3LoadError
deriving DecidableEq

/-- The ID3 metadata tags stored on a file (`utils.rs` `struct ID3`). -/
structure ID3 where
  title : String
  artist : String
  album : String
  year : Nat
  comment : String
  track : Option Nat
  genre : Nat
deriving DecidableEq

/-- Model of `utils.rs` `pad_bytes`: encode the string and
truncate/zero-pad the bytes to exactly `length` (Vec `resize`). -/
def padBytes (value : String) (length : Nat) : List Nat :=
  (strBytes value).take length ++ List.replicate (length - (strBytes value).length) 0

/-- Model of `u16::from_str_radix(s, 10)`: optional leading `+`, then one
or more decimal digits, value below `2^16`. -/
def parseU16 (s : List Char) : Option Nat :=
  let ds := match s with
    | c :: rest => if c = '+' then rest else s
    | [] => s
  if ds.isEmpty then none
  else if ds.all (fun c => 48 ≤ c.toNat && c.toNat ≤ 57) then
    let v := ds.foldl (fun a c => a * 10 + (c.toNat - 48)) 0
    if v < 65536 then some v else none
  else none

/-- Model of `ID3::from_stream`, reading from the trailing 128-byte block
(the stream seek and `read_exact` are folded into the length check). -/
def ID3.from_stream (buffer : List Nat) : Except ID3LoadError ID3 :=
  if buffer.length ≠ 128 then .error .ioError
  else if buffer.take 3 ≠ [84, 65, 71] then .error .noID3Tag
  else
    let titleBytes := ((buffer.drop 3).take 30).takeWhile (fun b => b ≠ 0)
    match utf8Decode titleBytes with
    | none => .error .decodeError
    | some title =>
      let artistBytes := ((buffer.drop 33).take 30).takeWhile (fun b => b ≠ 0)
      match utf8Decode artistBytes with
      | none => .error .decodeError
      | some artist =>
        let albumBytes := ((buffer.drop 63).take 30).takeWhile (fun b => b ≠ 0)
        match utf8Decode albumBytes with
        | none => .error .decodeError
        | some album =>
          let trackMarker := buffer.getD 125 0
          let trackNumber := buffer.getD 126 0
          let genreNumber := buffer.getD 127 0
          let commentBytes0 := ((buffer.drop 97).take 28).takeWhile (fun b => b ≠ 0)
          let commentBytes :=
            if trackMarker ≠ 0 then
              commentBytes0 ++ [trackNumber] ++ (if trackNumber ≠ 0 then [trackNumber] else [])
            else commentBytes0
          match utf8Decode commentBytes with
          | none => .error .decodeError
          | some comment =>
            let yearBytes := (buffer.drop 93).take 4
            match utf8Decode yearBytes with
            | none => .error .decodeError
            | some s =>
              let year : Except ID3LoadError Nat :=
                if s.data = List.replicate 4 (Char.ofNat 0) then .ok 0
                else match parseU16 s.data with
                  | some v => .ok v
                  | none => .error (.yearError s)
              match year with
              | .error e => .error e
              | .ok year =>
                .ok { title := title, artist := artist, album := album, year := year,
                      comment := comment,
                      track := if trackMarker = 0 then none else some trackNumber,
                      genre := genreOfU8 genreNumber }

/-- Digits of `format!("{:04}", y)` for `y ≤ 9999`: exactly four ASCII
decimal digits, zero padded. -/
def yearDigits (y : Nat) : List Nat :=
  [48 + y / 1000 % 10, 48 + y / 100 % 10, 48 + y / 10 % 10, 48 + y % 10]

/-- Model of `ID3::to_stream`: the 128-byte block the writer emits (the
in-memory writer never fails short writes), or `none` when the year does
not fit in four digits. -/
def ID3.to_stream (tag : ID3) : Option (List Nat) :=
  if tag.year > 9999 then none
  else
    some ([84, 65, 71] ++
      padBytes tag.title 29 ++ [0] ++
      padBytes tag.artist 29 ++ [0] ++
      padBytes tag.album 29 ++ [0] ++
      yearDigits tag.year ++
      (match tag.track with
        | some track => padBytes tag.comment 28 ++ [0, track]
        | none => padBytes tag.comment 29 ++ [0]) ++
      [genreToU8 tag.genre])

example :
    (ID3.to_stream { title := "X", artist := "shuffled", album := "", year := 2020,
                     comment := "", track := some 1, genre := 192 }).map ID3.from_stream =
      some (.ok { title := "X", artist := "shuffled", album := "", year := 2020,
                  comment := "", track := none, genre := 192 }) := rfl

/-! ### Association-list maps

`HashMap` values are modelled as association lists; `insert` replaces the
value of an existing key in place and appends a new key at the end, and
the iteration order of the model is the list order (the Rust iteration
order is arbitrary; none of the proved statements depend on it). -/

/-- Model of `Vec::contains` on paths/strings: membership by equality. -/
def listContains (l : List String) (x : String) : Bool :=
  l.any (fun y => y = x)

/-- Model of `HashMap::get`. -/
def mapFind {α : Type} (m : List (String × α)) (k : String) : Option α :=
  match m with
  | [] => none
  | p :: rest => if p.1 = k then some p.2 else mapFind rest k

/-- Model of `HashMap::contains_key`. -/
def containsKey {α : Type} (m : List (String × α)) (k : String) : Bool :=
  m.any (fun p => p.1 = k)

/-- Model of `HashMap::insert`. -/
def mapInsert {α : Type} (m : List (String × α)) (k : String) (v : α) : List (String × α) :=
  if containsKey m k then m.map (fun p => if p.1 = k then (k, v) else p)
  else m ++ [(k, v)]

/-- Model of `HashMap::keys` (in the model's iteration order). -/
def mapKeys {α : Type} (m : List (String × α)) : List String :=
  m.map Prod.fst

/-! ### Playlists (`server.rs` `struct Playlist`) -/

/-- A single playlist and its current position. -/
structure Playlist where
  position : Nat
  songs : List String
deriving DecidableEq

/-- Model of `Playlist::new`. -/
def Playlist.new (songs : List String) : Option Playlist :=
  if songs.length = 0 then none else some { position := 0, songs := songs }

/-- Model of `Playlist::seek`. -/
def Playlist.seek (pl : Playlist) (position : Nat) : Playlist :=
  { pl with position := position % pl.songs.length }

/-- Model of `Playlist::current`.  The Rust code indexes
`songs[position]` and panics when the position is out of range; the
model totalises with a default, and every theorem using it carries the
in-range hypothesis. -/
def Playlist.current (pl : Playlist) : String :=
  pl.songs.getD pl.position ""

/-- Model of `Playlist::next`. -/
def Playlist.next (pl : Playlist) : Playlist :=
  { pl with position := (pl.position + 1) % pl.songs.length }

/-- Model of `Playlist::shuffle`.  The RNG-driven `shuffle` keeps exactly
the same elements in an unspecified order, so it is abstracted by the
permutation-like parameter `sh` that every caller receives. -/
def Playlist.shuffle (sh : List String → List String) (pl : Playlist) : Playlist :=
  { position := 0, songs := sh pl.songs }

/-- Model of `Playlist::diff_playlist`: `(to_add, to_remove)`. -/
def Playlist.diff_playlist (pl : Playlist) (playlist : List String) :
    List String × List String :=
  (playlist.filter (fun song => !(listContains pl.songs song)),
   pl.songs.filter (fun song => !(listContains playlist song)))

/-- The indices loop of `Playlist::merge_songs`: positions (from `start`)
of the songs that occur in `toRemove`. -/
def collectRemoveIdxs (toRemove : List String) : List String → Nat → List Nat
  | [], _ => []
  | song :: rest, i =>
    (if listContains toRemove song then [i] else []) ++ collectRemoveIdxs toRemove rest (i + 1)

/-- One iteration of the removal loop of `Playlist::merge_songs`: state is
`(songs, position, offset)`.  `offset` is an `i64`-like counter in the
model; in the Rust source it is a `usize` whose release-mode wraparound
realises the same `idx + offset` subtraction. -/
def removeStep (st : List String × Nat × Int) (idx : Nat) : List String × Nat × Int :=
  (st.1.eraseIdx (Int.toNat (idx + st.2.2)),
   (if idx < st.2.1 then st.2.1 - 1 else st.2.1),
   st.2.2 - 1)

/-- Model of `Playlist::merge_songs`. -/
def Playlist.merge_songs (pl : Playlist) (toAdd toRemove : List String) : Playlist :=
  let idxs := collectRemoveIdxs toRemove pl.songs 0
  let st := idxs.foldl removeStep (pl.songs, pl.position, 0)
  let songs := st.1 ++ toAdd
  { position := if st.2.1 > songs.length then 0 else st.2.1, songs := songs }

example :
    Playlist.merge_songs { position := 1, songs := ["a", "b", "c"] } ["d"] ["a"] =
      { position := 0, songs := ["b", "c", "d"] } := rfl

example :
    Playlist.merge_songs { position := 2, songs := ["a", "b", "c"] } [] ["c"] =
      { position := 2, songs := ["a", "b"] } := rfl

example :
    Playlist.merge_songs { position := 2, songs := ["a", "b", "c", "d"] } [] ["a", "b"] =
      { position := 1, songs := ["c", "d"] } := rfl

/-! ### The ID3 tag cache and special queue (`server.rs`) -/

/-- Model of `Playlist::update_id3_directory`.  The per-song pipeline
(path-to-UTF-8 conversion, cache check, file open, tag parse) is
abstracted by `readTag : String → Option ID3`; every failure arm only
logs and leaves the directory unchanged, and paths are `String`s in the
model so the UTF-8 conversion always succeeds. -/
def Playlist.update_id3_directory (readTag : String → Option ID3) (pl : Playlist)
    (directory : List (String × ID3)) : List (String × ID3) :=
  pl.songs.foldl
    (fun dir song =>
      if containsKey dir song then dir
      else match readTag song with
        | some tags => mapInsert dir song tags
        | none => dir)
    directory

/-- The file name of the generated clock announcement
(`CLOCK_MP3_FILE`). -/
def clockMp3File : String := "clock-stereo.mp3"

/-- An entry in the special playlist (`SpecialQueueEntry`). -/
inductive SpecialQueueEntry where
  | timeGenerator : SpecialQueueEntry
  | file : String → SpecialQueueEntry
deriving DecidableEq

/-- The playlist and timing for the special weather/time report queue
(`struct SpecialQueue`); instants are modelled as `Nat` timestamps. -/
structure SpecialQueue where
  entries : List SpecialQueueEntry
  position : Nat
  working_dir : String
  last_play_time : Nat
  interval : Nat
deriving DecidableEq

/-- Model of `SpecialQueue::is_special_pending` at time `now`; a clock
that went backwards (`duration_since` error) reports not-pending. -/
def SpecialQueue.is_special_pending (s : SpecialQueue) (now : Nat) : Bool :=
  if s.entries.length = 0 then false
  else if now < s.last_play_time then false
  else s.interval ≤ now - s.last_play_time

/-- Model of `SpecialQueue::update_timer`. -/
def SpecialQueue.update_timer (s : SpecialQueue) (now : Nat) : SpecialQueue :=
  { s with last_play_time := now }

/-- Model of `SpecialQueue::current`.  For the `TimeGenerator` entry the
external TTS/encode pipeline (`read_text_announcement`) either produces
the clock MP3 inside the working directory or fails; the outcome is the
parameter `genOk`.  A static entry resolves to its stored path. -/
def SpecialQueue.current (genOk : Bool) (s : SpecialQueue) : Option String :=
  if s.entries.length = 0 then none
  else match s.entries.getD s.position .timeGenerator with
    | .timeGenerator =>
      if genOk then some (s.working_dir ++ "/" ++ clockMp3File) else none
    | .file path => some path

/-- Model of `SpecialQueue::next`. -/
def SpecialQueue.next (s : SpecialQueue) : SpecialQueue :=
  { s with position := (s.position + 1) % s.entries.length }

/-! ### The playlist registry (`server.rs` `struct PlaylistQueue`) -/

/-- The current playlist and song as well as all registered playlists. -/
structure PlaylistQueue where
  current_playlist : String
  playlists : List (String × Playlist)
  directory : String
  id3_tags : List (String × ID3)
deriving DecidableEq

/-- Model of `PlaylistQueue::shuffle_all`. -/
def PlaylistQueue.shuffle_all (sh : List String → List String) (q : PlaylistQueue) :
    PlaylistQueue :=
  { q with playlists := q.playlists.map (fun p => (p.1, p.2.shuffle sh)) }

/-- The per-source-playlist body of `PlaylistQueue::merge_with`: state is
`(playlists map, id3 directory)`. -/
def mergeWithStep (sh : List String → List String) (readTag : String → Option ID3)
    (st : List (String × Playlist) × List (String × ID3)) (entry : String × List String) :
    List (String × Playlist) × List (String × ID3) :=
  if entry.2.length = 0 then st
  else match mapFind st.1 entry.1 with
    | some ourPlaylist =>
      let ar := ourPlaylist.diff_playlist entry.2
      let merged := ourPlaylist.merge_songs (sh ar.1) ar.2
      (mapInsert st.1 entry.1 merged, merged.update_id3_directory readTag st.2)
    | none =>
      -- `Playlist::new(...).unwrap()`: the guard above makes `new` succeed;
      -- the default is never used.
      let added := ((Playlist.new entry.2).getD { position := 0, songs := [] }).shuffle sh
      (mapInsert st.1 entry.1 added, added.update_id3_directory readTag st.2)

/-- The source-playlist loop of `merge_with`: fold the per-entry step
over the parsed disk playlists, starting from the registry's map and tag
cache. -/
def mergeWithFold (sh : List String → List String) (readTag : String → Option ID3)
    (q : PlaylistQueue) (disk : List (String × List String)) :
    List (String × Playlist) × List (String × ID3) :=
  disk.foldl (mergeWithStep sh readTag) (q.playlists, q.id3_tags)

/-- The `to_remove_playlists` list of `merge_with`: registry keys whose
name is absent from the disk map or whose song list became empty. -/
def mergeWithRemoveList (disk : List (String × List String))
    (playlists : List (String × Playlist)) : List String :=
  (mapKeys playlists).filter
    (fun name =>
      !(containsKey disk name) ||
        ((mapFind playlists name).getD { position := 0, songs := [] }).songs.length == 0)

/-- The playlist map of `merge_with` after the removal loop. -/
def mergeWithKept (disk : List (String × List String))
    (playlists : List (String × Playlist)) : List (String × Playlist) :=
  playlists.filter (fun p => !(listContains (mergeWithRemoveList disk playlists) p.1))

/-- Model of `PlaylistQueue::merge_with`.  The fresh RNG is abstracted by
`sh` and the tag reads by `readTag`.  The final
`keys().next().unwrap()` fallback is modelled by keeping the old
selection for an empty map (the Rust code would panic there; the
reconciliation theorem shows the map is never empty). -/
def PlaylistQueue.merge_with (sh : List String → List String) (readTag : String → Option ID3)
    (q : PlaylistQueue) (disk : List (String × List String)) : PlaylistQueue :=
  if disk.length = 0 then q
  else
    { current_playlist :=
        if containsKey (mergeWithKept disk (mergeWithFold sh readTag q disk).1)
            q.current_playlist
        then q.current_playlist
        else
          match mergeWithKept disk (mergeWithFold sh readTag q disk).1 with
          | [] => q.current_playlist
          | p :: _ => p.1,
      playlists := mergeWithKept disk (mergeWithFold sh readTag q disk).1,
      directory := q.directory,
      id3_tags := (mergeWithFold sh readTag q disk).2 }

/-! ### Loading `.m3u8` playlists (`server.rs` `parse_m3u8_playlist`,
`read_m3u8_files`)

The filesystem is abstracted by the predicate `isFile : String → Bool`
(`Path::is_file`) and by per-entry data: the canonicalized parent
directory used to resolve relative lines, and the raw file contents. -/

/-- Splits a character list at every newline, like Rust
`str::split('\n')` (which yields one possibly-empty piece more than the
number of separators). -/
def splitOnNl : List Char → List (List Char)
  | [] => [[]]
  | c :: rest =>
    let r := splitOnNl rest
    if c = Char.ofNat 10 then [] :: r
    else match r with
      | [] => [[c]]
      | h :: t => (c :: h) :: t

/-- Model of `str::trim` (ASCII whitespace; the playlists under test use
no exotic Unicode whitespace). -/
def trimAscii (l : List Char) : List Char :=
  ((l.dropWhile Char.isWhitespace).reverse.dropWhile Char.isWhitespace).reverse

/-- Model of `Path::is_absolute` for Unix paths. -/
def isAbsolutePath (s : String) : Bool :=
  match s.data with
  | [] => false
  | c :: _ => c = '/'

/-- The line loop of `parse_m3u8_playlist`: resolve each non-blank
trimmed line against the playlist's own directory, require an existing
regular file, reject duplicates. -/
def parseLines (isFile : String → Bool) (parentDir : Option String) :
    List (List Char) → List String → Except String (List String)
  | [], acc => .ok acc
  | line :: rest, acc =>
    let processed := trimAscii line
    if processed.isEmpty then parseLines isFile parentDir rest acc
    else
      let path := String.mk processed
      let resolved : Except String String :=
        if isAbsolutePath path then .ok path
        else match parentDir with
          | some parent => .ok (parent ++ "/" ++ path)
          | none => .error "failed to resolve relative entry"
      match resolved with
      | .error e => .error e
      | .ok path =>
        if ¬ isFile path then .error "entry is not a file"
        else if listContains acc path then .error "entry is a duplicate"
        else parseLines isFile parentDir rest (acc ++ [path])

/-- Model of `parse_m3u8_playlist` given the bytes of the playlist file
(the `fs::read` I/O error arm is outside the model; an unreadable
*directory* is modelled in `read_m3u8_files`). -/
def parse_m3u8_playlist (isFile : String → Bool) (parentDir : Option String)
    (contents : List Nat) : Except String (List String) :=
  match utf8Decode contents with
  | none => .error "could not decode playlist"
  | some text =>
    match parseLines isFile parentDir (splitOnNl text.data) [] with
    | .error e => .error e
    | .ok playlist =>
      if playlist.length = 0 then .error "no entries" else .ok playlist

/-- One directory entry as seen by `read_m3u8_files`: whether it is a
regular file, its extension and stem, the canonicalized parent used for
relative resolution, and the file's bytes. -/
structure DirEntry where
  isEntryFile : Bool
  ext : Option String
  stem : Option String
  parentDir : Option String
  contents : List Nat

/-- The entry loop of `read_m3u8_files`.  Note that a parse failure is
propagated with `?` and aborts the whole scan. -/
def readLoop (isFile : String → Bool) :
    List DirEntry → List (String × List String) → Except String (List (String × List String))
  | [], acc => .ok acc
  | e :: rest, acc =>
    if ¬ e.isEntryFile then readLoop isFile rest acc
    else if e.ext ≠ some "m3u8" then readLoop isFile rest acc
    else match e.stem with
      | none => .error "unreadable name"
      | some name =>
        match parse_m3u8_playlist isFile e.parentDir e.contents with
        | .error err => .error err
        | .ok playlist => readLoop isFile rest (mapInsert acc name playlist)

/-- Model of `read_m3u8_files`; `dir` is the outcome of
`read_dir` on the playlist directory. -/
def read_m3u8_files (isFile : String → Bool) (dir : Except String (List DirEntry)) :
    Except String (List (String × List String)) :=
  match dir with
  | .error e => .error ("Error reading playlist directory: " ++ e)
  | .ok entries =>
    match readLoop isFile entries [] with
    | .error e => .error e
    | .ok raw => if raw.length = 0 then .error "no playlists" else .ok raw

example :
    parse_m3u8_playlist (fun p => p = "/music/a.mp3" ∨ p = "/music/b.mp3")
      (some "/music") (strBytes "/music/a.mp3\nb.mp3\n") =
      .ok ["/music/a.mp3", "/music/b.mp3"] := rfl

example :
    (parse_m3u8_playlist (fun p => p = "/music/a.mp3" ∨ p = "/music/b.mp3")
      (some "/music") (strBytes "/music/a.mp3\n/music/a.mp3\n")).isOk = false := rfl

/-! ### The RPC protocol layer (`server.rs`) -/

/-- The display names of the 192 table genres, in table order
(`impl From<ID3Genres> for String`). -/
def genreNameTable : List String := [
  "Blues", "Classic Rock", "Country", "Dance",
  "Disco", "Funk", "Grunge", "Hip-Hop",
  "Jazz", "Metal", "New Age", "Oldies",
  "Other", "Pop", "R&B", "Rap",
  "Reggae", "Rock", "Techno", "Industrial",
  "Alternative", "Ska", "Death Metal", "Pranks",
  "Soundtrack", "Euro-Techno", "Ambient", "Trip-Hop",
  "Vocal", "Jazz+Funk", "Fusion", "Trance",
  "Classical", "Instrumental", "Acid", "House",
  "Game", "Sound Clip", "Gospel", "Noise",
  "Alt. Rock", "Bass", "Soul", "Punk",
  "Space", "Meditative", "Instrumental Pop", "Instrumental Rock",
  "Ethnic", "Gothic", "Darkwave", "Techno-Industrial",
  "Electronic", "Pop-Folk", "Eurodance", "Dream",
  "Southern Rock", "Comedy", "Cult", "Gangsta Rap",
  "Top 40", "Christian Rap", "Pop/Funk", "Jungle",
  "Native American", "Cabaret", "New Wave", "Psychedelic",
  "Rave", "Showtunes", "Trailer", "Lo-Fi",
  "Tribal", "Acid Punk", "Acid Jazz", "Polka",
  "Retro", "Musical", "Rock & Roll", "Hard Rock",
  "Folk", "Folk-Rock", "National Folk", "Swing",
  "Fast-Fusion", "Bebop", "Latin", "Revival",
  "Celtic", "Bluegrass", "Avantgarde", "Gothic Rock",
  "Progressive Rock", "Psychedelic Rock", "Symphonic Rock", "Slow Rock",
  "Big Band", "Chorus", "Easy Listening", "Acoustic",
  "Humour", "Speech", "Chanson", "Opera",
  "Chamber Music", "Sonata", "Symphony", "Booty Bass",
  "Primus", "Porn Groove", "Satire", "Slow Jam",
  "Club", "Tango", "Samba", "Folklore",
  "Ballad", "Power Ballad", "Rhythmic Soul", "Freestyle",
  "Duet", "Punk Rock", "Drum Solo", "A Cappella",
  "Euro-House", "Dance Hall", "Goa", "Drum & Bass",
  "Club-House", "Hardcore", "Terror", "Indie",
  "BritPop", "Afro-Punk", "Polsk Punk", "Beat",
  "Christian Gangsta Rap", "Heavy Metal", "Black Metal", "Crossover",
  "Contemporary Christian", "Christian Rock", "Merengue", "Salsa",
  "Thrash Metal", "Anime", "JPop", "Synthpop",
  "Abstract", "Art Rock", "Baroque", "Bhangra",
  "Big Beat", "Breakbeat", "Chillout", "Downtempo",
  "Dub", "EBM", "Eclectic", "Electro",
  "Electroclash", "Emo", "Experimental", "Garage",
  "Global", "IDM", "Illbient", "Industro-Goth",
  "Jam Band", "Krautrock", "Leftfield", "Lounge",
  "Math Rock", "New Romantic", "Nu-Breakz", "Post-Punk",
  "Post-Rock", "Psytrance", "Shoegaze", "Space Rock",
  "Trop Rock", "World Music", "Neoclassical", "Audiobook",
  "Audio Theatre", "Neue Deutsche Welle", "Podcast", "Indie Rock",
  "G-Funk", "Dubstep", "Garage Rock", "Psybient"]

/-- Model of `impl From<ID3Genres> for String`: a table genre displays as
its name, `Unknown` as `"?"`. -/
def genreName (g : Nat) : String :=
  if g < 192 then genreNameTable.getD g "?" else "?"

/-- The commands that can be received from RPC, plus the error cases
reported when commands are parsed (`enum RpcRequest`). -/
inductive RpcRequest where
  | nextTrack : RpcRequest
  | listPlaylists : RpcRequest
  | getPlaylist : RpcRequest
  | switchPlaylist : String → RpcRequest
  | reloadPlaylists : RpcRequest
  | shufflePlaylists : RpcRequest
  | previewPlaylist : String → RpcRequest
  | reloadTags : RpcRequest
  | invalidRequest : RpcRequest
  | unknownCommand : RpcRequest
  | invalidParameter : RpcRequest
deriving DecidableEq

/-- The responses that can be sent back over RPC (`enum RpcResponse`). -/
inductive RpcResponse where
  | ok : RpcResponse
  | track : String → RpcResponse
  | tracks : Json → RpcResponse
  | playlists : List String → RpcResponse
  | playlist : String → RpcResponse
  | noSuchPlaylist : RpcResponse
  | noPlaylistsAvailable : RpcResponse
  | invalidRequest : RpcResponse
  | unknownCommand : RpcResponse
  | invalidParameter : RpcResponse

/-- Model of `try_parse_request`; `jp` is the external `json::parse`.
The Rust `match` over the command string is rendered as the equivalent
chain of string comparisons. -/
def try_parse_request (jp : String → Option Json) (buffer : List Nat) :
    Option (RpcRequest × Nat) :=
  match buffer.findIdx? (fun b => b = 10) with
  | none => none
  | some firstNewline =>
    let dflt := some (RpcRequest.invalidRequest, firstNewline + 1)
    match utf8Decode (buffer.take firstNewline) with
    | none => dflt
    | some firstLine =>
      match jp firstLine with
      | none => dflt
      | some doc =>
        if !(doc.isObject && doc.hasKey "command") then dflt
        else match (doc.idx "command").asStr with
          | none => dflt
          | some command =>
            if command = "next-track" then some (.nextTrack, firstNewline + 1)
            else if command = "list-playlists" then some (.listPlaylists, firstNewline + 1)
            else if command = "get-playlist" then some (.getPlaylist, firstNewline + 1)
            else if command = "reload-playlists" then some (.reloadPlaylists, firstNewline + 1)
            else if command = "shuffle-playlists" then some (.shufflePlaylists, firstNewline + 1)
            else if command = "reload-tags" then some (.reloadTags, firstNewline + 1)
            else if command = "switch-playlist" then
              if !(doc.hasKey "playlist") then some (.invalidParameter, firstNewline + 1)
              else match (doc.idx "playlist").asStr with
                | some playlist => some (.switchPlaylist playlist, firstNewline + 1)
                | none => some (.invalidParameter, firstNewline + 1)
            else if command = "preview-playlist" then
              if !(doc.hasKey "playlist") then some (.invalidParameter, firstNewline + 1)
              else match (doc.idx "playlist").asStr with
                | some playlist => some (.previewPlaylist playlist, firstNewline + 1)
                | none => some (.invalidParameter, firstNewline + 1)
            else some (.unknownCommand, firstNewline + 1)

/-- Modelled from the spec: the parsing policy of §4.4, stated
independently of the implementation.  A line that is not a well-formed
JSON object or lacks a string `command` field is `InvalidRequest`; a
well-formed object with an unrecognized command is `UnknownCommand`;
`switch-playlist`/`preview-playlist` with a missing or non-string
`playlist` field is `InvalidParameter` (indexing a missing key yields
`Null`, whose `asStr` is `none`). -/
def classify_line (jp : String → Option Json) (lineBytes : List Nat) : RpcRequest :=
  match utf8Decode lineBytes with
  | none => .invalidRequest
  | some line =>
    match jp line with
    | none => .invalidRequest
    | some doc =>
      if !doc.isObject then .invalidRequest
      else match (doc.idx "command").asStr with
        | none => .invalidRequest
        | some command =>
          if command = "next-track" then .nextTrack
          else if command = "list-playlists" then .listPlaylists
          else if command = "get-playlist" then .getPlaylist
          else if command = "reload-playlists" then .reloadPlaylists
          else if command = "shuffle-playlists" then .shufflePlaylists
          else if command = "reload-tags" then .reloadTags
          else if command = "switch-playlist" then
            match (doc.idx "playlist").asStr with
            | some playlist => .switchPlaylist playlist
            | none => .invalidParameter
          else if command = "preview-playlist" then
            match (doc.idx "playlist").asStr with
            | some playlist => .previewPlaylist playlist
            | none => .invalidParameter
          else .unknownCommand

/-- The ambient effects of one request: the wall clock, the outcome of
clock-announcement generation, the filesystem, the RNG-driven shuffles,
the per-file tag reads, the playlist-directory listing, and the external
JSON parser. -/
structure Env where
  now : Nat
  genClockOk : Bool
  isFile : String → Bool
  sh : List String → List String
  readTag : String → Option ID3
  dirEntries : Except String (List DirEntry)
  jp : String → Option Json

/-- Model of `process_request`: the updated registry and special queue
together with the response.  The `get_mut(...).unwrap()` on the current
playlist is totalised with an empty default (the registry invariant,
proved for reconciliation, rules it out). -/
def process_request (env : Env) (rpc : RpcRequest) (q : PlaylistQueue) (s : SpecialQueue) :
    PlaylistQueue × SpecialQueue × RpcResponse :=
  match rpc with
  | .nextTrack =>
    let fallthrough :=
      let currentPlaylist := (mapFind q.playlists q.current_playlist).getD
        { position := 0, songs := [] }
      let song := currentPlaylist.current
      ({ q with playlists := mapInsert q.playlists q.current_playlist currentPlaylist.next },
       s, RpcResponse.track song)
    if s.is_special_pending env.now then
      match SpecialQueue.current env.genClockOk s with
      | some special =>
        if env.isFile special then (q, (s.next).update_timer env.now, .track special)
        else fallthrough
      | none => fallthrough
    else fallthrough
  | .listPlaylists => (q, s, .playlists (mapKeys q.playlists))
  | .getPlaylist => (q, s, .playlist q.current_playlist)
  | .switchPlaylist target =>
    if containsKey q.playlists target then
      ({ q with current_playlist := target }, s, .ok)
    else (q, s, .noSuchPlaylist)
  | .previewPlaylist playlist =>
    match mapFind q.playlists playlist with
    | some pl =>
      let startPos := pl.position
      let step := fun (st : Playlist × List Json) (x : Nat) =>
        let file := st.1.current
        let advanced := st.1.next
        -- paths are `String`s in the model, so `to_str` always succeeds
        -- and every iteration pushes one entry
        let id3Fields : List (String × Json) :=
          match mapFind q.id3_tags file with
          | some tags =>
            [("title", .str tags.title), ("artist", .str tags.artist),
             ("album", .str tags.album), ("comment", .str tags.comment),
             ("year", .num tags.year)] ++
            (match tags.track with
              | some t => [("track", Json.num t)]
              | none => []) ++
            [("genre", .str (genreName tags.genre))]
          | none => []
        let entry := Json.obj [("offset", .num x), ("file", .str file), ("id3", .obj id3Fields)]
        (advanced, st.2 ++ [entry])
      let res := (List.range 5).foldl step (pl, [])
      ({ q with playlists := mapInsert q.playlists playlist (res.1.seek startPos) },
       s, .tracks (Json.arr res.2))
    | none => (q, s, .noSuchPlaylist)
  | .shufflePlaylists => (q.shuffle_all env.sh, s, .ok)
  | .reloadTags =>
    let directory := q.playlists.foldl
      (fun dir p => p.2.update_id3_directory env.readTag dir) []
    ({ q with id3_tags := directory }, s, .ok)
  | .reloadPlaylists =>
    match read_m3u8_files env.isFile env.dirEntries with
    | .error _ => (q, s, .noPlaylistsAvailable)
    | .ok rawPlaylists => (q.merge_with env.sh env.readTag rawPlaylists, s, .ok)
  | .invalidRequest => (q, s, .invalidRequest)
  | .unknownCommand => (q, s, .unknownCommand)
  | .invalidParameter => (q, s, .invalidParameter)

/-- Model of the read loop of `process_connection`.  Each element of
`reads` is the byte chunk delivered by one successful socket read; the
list ending models a zero-byte read / timeout / error, all of which end
the connection.  Responses are collected as values (`send_response`
serialization is outside the claims).  Note the loop body attempts to
parse at most ONE request per read. -/
def run_conn (env : Env) :
    List (List Nat) → List Nat → PlaylistQueue → SpecialQueue →
      List RpcResponse × List Nat × PlaylistQueue × SpecialQueue
  | [], buf, q, s => ([], buf, q, s)
  | chunk :: rest, buf, q, s =>
    let buf2 := buf ++ chunk
    match try_parse_request env.jp buf2 with
    | some (rpc, offset) =>
      let buf3 := buf2.drop offset
      let r := process_request env rpc q s
      let restRun := run_conn env rest buf3 r.1 r.2.1
      (r.2.2 :: restRun.1, restRun.2)
    | none =>
      if buf2.length > 4096 then ([], buf2, q, s)
      else run_conn env rest buf2 q s

/-! ### Concrete fixtures used by counterexamples and witnesses -/

/-- The request line `\x7b"command":"get-playlist"\x7d` as text. -/
def jsonGetPlaylistLine : String := "\x7b\"command\":\"get-playlist\"\x7d"

/-- A JSON parser fixture that recognizes exactly the fixture line (the
behaviour the `json` crate has on it). -/
def jpFix : String → Option Json := fun s =>
  if s = jsonGetPlaylistLine then some (Json.obj [("command", Json.str "get-playlist")])
  else none

/-- The bytes of one complete `get-playlist` request line. -/
def lineBytes0 : List Nat := strBytes jsonGetPlaylistLine ++ [10]

/-- A one-song playlist fixture. -/
def plFix : Playlist := { position := 0, songs := ["/music/x.mp3"] }

/-- A small registry fixture: one playlist `p` with one song, selected. -/
def q0 : PlaylistQueue :=
  { current_playlist := "p",
    playlists := [("p", plFix)],
    directory := "/pl", id3_tags := [] }

/-- An empty special queue fixture. -/
def s0 : SpecialQueue :=
  { entries := [], position := 0, working_dir := "/w", last_play_time := 0, interval := 60 }

/-- An environment fixture with an unreadable playlist directory. -/
def env0 : Env :=
  { now := 0, genClockOk := false, isFile := fun _ => false, sh := id,
    readTag := fun _ => none, dirEntries := .error "unreadable", jp := jpFix }

/-- A special queue fixture holding one static entry whose file does not
exist under `env0` (`env0.isFile` is constantly false), with the
cooldown elapsed. -/
def s1 : SpecialQueue :=
  { entries := [.file "/w/weather.mp3"], position := 0, working_dir := "/w",
    last_play_time := 0, interval := 0 }

/-- A filesystem fixture for the playlist-loading claims. -/
def fsC3 : String → Bool := fun p => p = "/music/a.mp3" ∨ p = "/music/b.mp3"

/-- A well-formed playlist directory entry. -/
def entryGood : DirEntry :=
  { isEntryFile := true, ext := some "m3u8", stem := some "good",
    parentDir := some "/music", contents := strBytes "/music/a.mp3\n/music/b.mp3\n" }

/-- A malformed playlist directory entry (duplicate track). -/
def entryBad : DirEntry :=
  { isEntryFile := true, ext := some "m3u8", stem := some "bad",
    parentDir := some "/music", contents := strBytes "/music/a.mp3\n/music/a.mp3\n" }

/-- The ID3 tag of the track-present round-trip claim. -/
def tagTrackPresent : ID3 :=
  { title := "X", artist := "shuffled", album := "", year := 2020,
    comment := "", track := some 1, genre := 192 }

/-! ### Helper lemmas about the association-list maps -/

theorem listContains_iff (l : List String) (x : String) :
    listContains l x = true ↔ x ∈ l := by
  simp only [listContains, List.any_eq_true, decide_eq_true_eq]
  exact ⟨fun ⟨y, hy, e⟩ => e ▸ hy, fun h => ⟨x, h, rfl⟩⟩

theorem mapFind_append_right {α : Type} (m : List (String × α)) (k : String) (v : α)
    (h : containsKey m k = false) : mapFind (m ++ [(k, v)]) k = some v := by
  induction m with
  | nil => simp [mapFind]
  | cons p rest ih =>
    simp only [containsKey, List.any_cons, Bool.or_eq_false_iff, decide_eq_false_iff_not] at h
    simp only [List.cons_append, mapFind, if_neg h.1]
    exact ih (by simpa [containsKey] using h.2)

theorem mapFind_mapReplace {α : Type} (m : List (String × α)) (k : String) (v : α)
    (h : containsKey m k = true) :
    mapFind (m.map (fun p => if p.1 = k then (k, v) else p)) k = some v := by
  induction m with
  | nil => simp [containsKey] at h
  | cons p rest ih =>
    by_cases hp : p.1 = k
    · simp [mapFind, hp]
    · simp only [containsKey, List.any_cons, Bool.or_eq_true, decide_eq_true_eq] at h
      rcases h with h | h
      · exact absurd h hp
      · simp only [List.map_cons, if_neg hp, mapFind, if_neg hp]
        exact ih (by simpa [containsKey] using h)

theorem mapFind_insert_self {α : Type} (m : List (String × α)) (k : String) (v : α) :
    mapFind (mapInsert m k v) k = some v := by
  unfold mapInsert
  by_cases h : containsKey m k
  · rw [if_pos h]; exact mapFind_mapReplace m k v h
  · rw [if_neg h]; exact mapFind_append_right m k v (by simpa using h)

theorem mapFind_mapReplace_ne {α : Type} (m : List (String × α)) (k k' : String) (v : α)
    (hne : k' ≠ k) :
    mapFind (m.map (fun p => if p.1 = k then (k, v) else p)) k' = mapFind m k' := by
  induction m with
  | nil => rfl
  | cons p rest ih =>
    by_cases hp : p.1 = k
    · simp only [List.map_cons, if_pos hp, mapFind, if_neg (Ne.symm hne)]
      rw [if_neg (fun e => hne (hp.symm.trans e).symm)]
      exact ih
    · simp only [List.map_cons, if_neg hp, mapFind]
      by_cases hpk : p.1 = k'
      · simp [hpk]
      · simp only [if_neg hpk]; exact ih

theorem mapFind_append_ne {α : Type} (m : List (String × α)) (k k' : String) (v : α)
    (hne : k' ≠ k) : mapFind (m ++ [(k, v)]) k' = mapFind m k' := by
  induction m with
  | nil => simp [mapFind, if_neg (fun e : k = k' => hne e.symm)]
  | cons p rest ih =>
    simp only [List.cons_append, mapFind]
    by_cases hpk : p.1 = k'
    · simp [hpk]
    · simp only [if_neg hpk]; exact ih

theorem mapFind_insert_ne {α : Type} (m : List (String × α)) (k k' : String) (v : α)
    (hne : k' ≠ k) : mapFind (mapInsert m k v) k' = mapFind m k' := by
  unfold mapInsert
  by_cases h : containsKey m k
  · rw [if_pos h]; exact mapFind_mapReplace_ne m k k' v hne
  · rw [if_neg h]; exact mapFind_append_ne m k k' v hne

theorem containsKey_eq_isSome {α : Type} (m : List (String × α)) (k : String) :
    containsKey m k = (mapFind m k).isSome := by
  induction m with
  | nil => rfl
  | cons p rest ih =>
    by_cases hp : p.1 = k
    · simp [containsKey, mapFind, hp]
    · simp only [containsKey, List.any_cons, mapFind, if_neg hp, decide_eq_true_eq]
      simp only [containsKey] at ih
      simp [hp, ih]

theorem mapFind_filter {α : Type} (m : List (String × α)) (predp : String × α → Bool)
    (pred : String → Bool) (hpred : ∀ p, predp p = pred p.1) (k : String) :
    mapFind (m.filter predp) k = if pred k then mapFind m k else none := by
  induction m with
  | nil => simp [mapFind]
  | cons p rest ih =>
    by_cases hpk : p.1 = k
    · subst hpk
      by_cases hp : pred p.1
      · simp [List.filter_cons, hpred p, hp, mapFind]
      · simp only [List.filter_cons, hpred p, Bool.not_eq_true] at *
        simp [hp, ih, mapFind]
    · by_cases hp : pred p.1
      · simp [List.filter_cons, hpred p, hp, mapFind, if_neg hpk, ih]
      · simp only [List.filter_cons, hpred p, Bool.not_eq_true] at *
        simp [hp, ih, mapFind, if_neg hpk]

theorem mapFind_ne_nil {α : Type} (m : List (String × α)) (k : String) (v : α)
    (h : mapFind m k = some v) : m ≠ [] := by
  intro he; subst he; simp [mapFind] at h

/-! ### Helper lemmas: the removal loop of `merge_songs` erases exactly
the entries listed in `to_remove` -/

/-- The songs component of the removal loop, taken on its own (the
position and offset components do not feed back into it). -/
def sFold : List Nat → List String → Int → List String
  | [], l, _ => l
  | i :: idxs, l, off => sFold idxs (l.eraseIdx (Int.toNat (i + off))) (off - 1)

theorem foldl_removeStep_fst (idxs : List Nat) (l : List String) (p : Nat) (off : Int) :
    (idxs.foldl removeStep (l, p, off)).1 = sFold idxs l off := by
  induction idxs generalizing l p off with
  | nil => rfl
  | cons i idxs ih => exact ih _ _ _

theorem sFold_collect_cons (rem : List String) (t : List String) (a : String) :
    ∀ (j : Nat) (off : Int) (s : List String), 1 ≤ (j : Int) + off →
      sFold (collectRemoveIdxs rem t j) (a :: s) off =
        a :: sFold (collectRemoveIdxs rem t j) s (off - 1) := by
  induction t with
  | nil => intro j off s _; rfl
  | cons b t ih =>
    intro j off s h
    by_cases hb : listContains rem b = true
    · simp only [collectRemoveIdxs, if_pos hb, List.singleton_append, sFold]
      have hm : Int.toNat ((j : Int) + off) = Int.toNat ((j : Int) + (off - 1)) + 1 := by omega
      rw [hm, List.eraseIdx_cons_succ]
      have := ih (j + 1) (off - 1) (s.eraseIdx (Int.toNat ((j : Int) + (off - 1)))) (by push_cast; omega)
      push_cast at this ⊢
      rw [this]
    · simp only [collectRemoveIdxs, if_neg hb, List.nil_append]
      exact ih (j + 1) off s (by push_cast; omega)

theorem sFold_collect_filter (rem : List String) (l : List String) :
    ∀ (i : Nat) (off : Int), (i : Int) + off = 0 →
      sFold (collectRemoveIdxs rem l i) l off =
        l.filter (fun s => !(listContains rem s)) := by
  induction l with
  | nil => intro i off _; rfl
  | cons a t ih =>
    intro i off h
    by_cases ha : listContains rem a = true
    · simp only [collectRemoveIdxs, if_pos ha, List.singleton_append, sFold]
      have h0 : Int.toNat ((i : Int) + off) = 0 := by omega
      rw [h0, List.eraseIdx_cons_zero, ih (i + 1) (off - 1) (by push_cast; omega)]
      simp [List.filter_cons, ha]
    · simp only [collectRemoveIdxs, if_neg ha, List.nil_append]
      rw [sFold_collect_cons rem t a (i + 1) off t (by push_cast; omega),
        ih (i + 1) (off - 1) (by push_cast; omega)]
      simp only [Bool.not_eq_true] at ha
      simp [List.filter_cons, ha]

theorem merge_songs_songs (pl : Playlist) (toAdd toRemove : List String) :
    (pl.merge_songs toAdd toRemove).songs =
      pl.songs.filter (fun s => !(listContains toRemove s)) ++ toAdd := by
  unfold Playlist.merge_songs
  simp only
  rw [foldl_removeStep_fst, sFold_collect_filter toRemove pl.songs 0 0 (by simp)]

/-! ### Helper lemmas about reconciliation (`merge_with`) -/

theorem mergeWithStep_preserves_other (sh : List String → List String)
    (rt : String → Option ID3) (st : List (String × Playlist) × List (String × ID3))
    (entry : String × List String) (k : String) (hne : entry.1 ≠ k) :
    mapFind (mergeWithStep sh rt st entry).1 k = mapFind st.1 k := by
  unfold mergeWithStep
  by_cases h0 : entry.2.length = 0
  · rw [if_pos h0]
  · rw [if_neg h0]
    cases hf : mapFind st.1 entry.1 <;> simp only [hf] <;>
      exact mapFind_insert_ne _ _ _ _ (Ne.symm hne)

theorem foldl_mergeWithStep_preserves (sh : List String → List String)
    (rt : String → Option ID3) (l : List (String × List String))
    (st : List (String × Playlist) × List (String × ID3)) (k : String)
    (hk : ∀ p ∈ l, p.1 ≠ k) :
    mapFind ((l.foldl (mergeWithStep sh rt) st)).1 k = mapFind st.1 k := by
  induction l generalizing st with
  | nil => rfl
  | cons e rest ih =>
    rw [List.foldl_cons, ih _ (fun p hp => hk p (List.mem_cons_of_mem _ hp)),
      mergeWithStep_preserves_other sh rt st e k (hk e (List.mem_cons_self _ _))]

theorem mergeWithStep_inserts_nonempty (sh : List String → List String)
    (rt : String → Option ID3) (st : List (String × Playlist) × List (String × ID3))
    (entry : String × List String) (hsh : ∀ l, (sh l).length = l.length)
    (hne : entry.2 ≠ []) :
    ∃ pl : Playlist,
      mapFind (mergeWithStep sh rt st entry).1 entry.1 = some pl ∧ pl.songs ≠ [] := by
  unfold mergeWithStep
  have h0 : ¬ entry.2.length = 0 := by simpa [List.length_eq_zero] using hne
  rw [if_neg h0]
  have hshne : ∀ l : List String, l ≠ [] → sh l ≠ [] := by
    intro l hl he
    exact hl (List.length_eq_zero.mp (by rw [← hsh l, he, List.length_nil]))
  cases hf : mapFind st.1 entry.1 with
  | none =>
    simp only [hf]
    refine ⟨_, mapFind_insert_self _ _ _, ?_⟩
    have hnew : Playlist.new entry.2 = some { position := 0, songs := entry.2 } := by
      unfold Playlist.new; rw [if_neg h0]
    rw [hnew]
    simpa [Playlist.shuffle] using hshne entry.2 hne
  | some our =>
    simp only [hf]
    refine ⟨_, mapFind_insert_self _ _ _, ?_⟩
    rw [merge_songs_songs]
    rcases hentry : entry.2 with _ | ⟨d, ds⟩
    · exact absurd hentry hne
    by_cases hd : listContains our.songs d = true
    · -- `d` is both on disk and in the registry playlist, so it is not in
      -- `to_remove` and survives the filter
      have hdnr : listContains (our.diff_playlist (d :: ds)).2 d = false := by
        by_contra hcon
        have hmem := (listContains_iff _ _).mp (Bool.not_eq_false _ ▸ hcon)
        have hmem2 : d ∈ our.songs ∧ listContains (d :: ds) d = false := by
          simpa [Playlist.diff_playlist, List.mem_filter] using hmem
        exact absurd ((listContains_iff (d :: ds) d).mpr (List.mem_cons_self d ds))
          (by simp [hmem2.2])
      intro happ
      have hdmem : d ∈ our.songs.filter
          (fun s => !(listContains (our.diff_playlist (d :: ds)).2 s)) :=
        List.mem_filter.mpr ⟨(listContains_iff _ _).mp hd, by simp [hdnr]⟩
      rw [List.append_eq_nil] at happ
      rw [happ.1] at hdmem
      exact absurd hdmem (List.not_mem_nil d)
    · -- `d` is new on disk, so `to_add` (and its shuffle) is non-empty
      have hdadd : d ∈ (our.diff_playlist (d :: ds)).1 := by
        refine List.mem_filter.mpr ⟨List.mem_cons_self d ds, ?_⟩
        simp only [Bool.not_eq_true] at hd
        simp [hd]
      intro happ
      rw [List.append_eq_nil] at happ
      exact hshne _ (List.ne_nil_of_mem hdadd) happ.2

theorem mergeWithKept_find (disk : List (String × List String))
    (playlists : List (String × Playlist)) (k : String) (pl : Playlist)
    (hfind : mapFind playlists k = some pl) (hdisk : containsKey disk k = true)
    (hne : pl.songs ≠ []) :
    mapFind (mergeWithKept disk playlists) k = some pl := by
  unfold mergeWithKept
  rw [mapFind_filter playlists _
    (fun name => !(listContains (mergeWithRemoveList disk playlists) name)) (fun _ => rfl) k]
  have hrem : listContains (mergeWithRemoveList disk playlists) k = false := by
    by_contra hcon
    have hmem := (listContains_iff _ _).mp (Bool.not_eq_false _ ▸ hcon)
    have hmem2 : k ∈ mapKeys playlists ∧
        (containsKey disk k = false ∨
          ((mapFind playlists k).getD { position := 0, songs := [] }).songs = []) := by
      simpa [mergeWithRemoveList, List.mem_filter] using hmem
    rcases hmem2.2 with hfalse | hempty
    · rw [hdisk] at hfalse; cases hfalse
    · rw [hfind] at hempty; exact hne (by simpa using hempty)
  simp [hrem, hfind]

theorem Json_idx_of_not_hasKey (fields : List (String × Json)) (k : String)
    (h : Json.hasKey (.obj fields) k = false) : Json.idx (.obj fields) k = .null := by
  have hfind : fields.find? (fun p => p.1 = k) = none := by
    rw [List.find?_eq_none]
    intro p hp hpk
    have hkey : Json.hasKey (.obj fields) k = true := by
      simp only [Json.hasKey, List.any_eq_true]
      exact ⟨p, hp, hpk⟩
    rw [h] at hkey
    cases hkey
  simp [Json.idx, hfind]

/-! ### Claim theorems -/

/-- C1: evaluating the codec at the claim's input.  Writing the tag
`{title := "X", artist := "shuffled", year := 2020, track := some 1}`
with `to_stream` and reading the 128-byte block back with `from_stream`
preserves title, artist and year but returns `track = none`: the
track-present writer emits the marker byte 125 as `0` (per the layout
comment in `utils.rs`), while the reader treats a zero marker as "no
track". -/
theorem id3_roundtrip_drops_track :
    (ID3.to_stream tagTrackPresent).map ID3.from_stream =
      some (.ok { title := "X", artist := "shuffled", album := "", year := 2020,
                  comment := "", track := none, genre := 192 }) := rfl

/-- C2 counterexample: a single read delivering two concatenated complete
`get-playlist` request lines produces exactly ONE response before the
handler returns to the blocking read, and the second line is left
unconsumed in the buffer — not the two responses the claim requires. -/
theorem two_requests_one_read_single_response :
    (run_conn env0 [lineBytes0 ++ lineBytes0] [] q0 s0).1.length = 1 ∧
    (run_conn env0 [lineBytes0 ++ lineBytes0] [] q0 s0).2.1 = lineBytes0 :=
  ⟨rfl, rfl⟩

/-- C2 amended: on each socket read the handler extracts and dispatches
at most one complete line; when a read's buffer parses to a first
request, exactly one response is produced for that read and the
remaining bytes (including any further complete line, hypothesis `h2`)
stay buffered until a later read delivers more data. -/
theorem single_read_single_dispatch (env : Env) (chunk : List Nat) (r : RpcRequest)
    (off : Nat) (q : PlaylistQueue) (s : SpecialQueue)
    (h : try_parse_request env.jp chunk = some (r, off))
    (_h2 : (try_parse_request env.jp (chunk.drop off)).isSome = true) :
    (run_conn env [chunk] [] q s).1.length = 1 ∧
    (run_conn env [chunk] [] q s).2.1 = chunk.drop off := by
  simp [run_conn, h]

/-- C2 witness: the amended theorem applied to the two-line read. -/
theorem single_read_single_dispatch_witness :
    try_parse_request env0.jp (lineBytes0 ++ lineBytes0) = some (.getPlaylist, 27) ∧
    (run_conn env0 [lineBytes0 ++ lineBytes0] [] q0 s0).1.length = 1 ∧
    (run_conn env0 [lineBytes0 ++ lineBytes0] [] q0 s0).2.1 =
      (lineBytes0 ++ lineBytes0).drop 27 :=
  ⟨rfl, single_read_single_dispatch env0 (lineBytes0 ++ lineBytes0) .getPlaylist 27 q0 s0 rfl rfl⟩

/-- C3 counterexample: `good.m3u8` alone loads fine, `bad.m3u8` alone is
malformed (duplicate entry), but a directory holding both yields an
overall error instead of skipping only the malformed file — refuting
the claim that loading succeeds whenever at least one valid playlist
file is present. -/
theorem malformed_playlist_not_skipped :
    (read_m3u8_files fsC3 (.ok [entryGood])).isOk = true ∧
    (read_m3u8_files fsC3 (.ok [entryBad])).isOk = false ∧
    (read_m3u8_files fsC3 (.ok [entryGood, entryBad])).isOk = false :=
  ⟨rfl, rfl, rfl⟩

/-- C4: evaluating `merge_songs` at the failing input.  Playlist
`["a","b","c"]` at position 2 with `toRemove = ["c"]` leaves the
position EQUAL to the new length (the reset guard uses `>` instead of
`>=`), violating the `0 <= position < length` invariant while the
playlist is non-empty. -/
theorem merge_songs_position_reaches_length :
    (Playlist.merge_songs { position := 2, songs := ["a", "b", "c"] } [] ["c"]).position =
      (Playlist.merge_songs { position := 2, songs := ["a", "b", "c"] } [] ["c"]).songs.length ∧
    (Playlist.merge_songs { position := 2, songs := ["a", "b", "c"] } [] ["c"]).songs.length ≠ 0 :=
  ⟨rfl, by decide⟩

/-- C5: evaluating `merge_songs` at the failing input.  Playlist
`["a","b","c","d"]` at position 2 (current `"c"`) with both predecessors
`["a","b"]` removed decrements the position only once (the loop compares
original indices against the already-decremented position), so the
current track silently changes from `"c"` to `"d"` — refuting the claim
that each removed predecessor decrements the position by exactly one and
the target track stays unchanged. -/
theorem merge_songs_double_removal_skips_track :
    Playlist.merge_songs { position := 2, songs := ["a", "b", "c", "d"] } [] ["a", "b"] =
      { position := 1, songs := ["c", "d"] } ∧
    Playlist.current { position := 2, songs := ["a", "b", "c", "d"] } = "c" ∧
    Playlist.current
      (Playlist.merge_songs { position := 2, songs := ["a", "b", "c", "d"] } [] ["a", "b"]) = "d" :=
  ⟨rfl, rfl, rfl⟩

/-- C8: when reading the playlist directory fails, `reload-playlists`
answers `no-playlists-available` and the registry (playlist map,
positions, selected name, tag cache) and special queue are returned
exactly as they were. -/
theorem reload_dir_error_keeps_state (env : Env) (q : PlaylistQueue) (s : SpecialQueue)
    (msg : String) (hdir : env.dirEntries = .error msg) :
    process_request env .reloadPlaylists q s = (q, s, .noPlaylistsAvailable) := by
  simp [process_request, read_m3u8_files, hdir]

/-- C8 witness: the directory-error theorem at the fixture environment. -/
theorem reload_dir_error_keeps_state_witness :
    env0.dirEntries = .error "unreadable" ∧
    process_request env0 .reloadPlaylists q0 s0 = (q0, s0, .noPlaylistsAvailable) :=
  ⟨rfl, reload_dir_error_keeps_state env0 q0 s0 "unreadable" rfl⟩

/-- C6: reconciliation preserves the registry invariant.  For any
registry whose selected name is a key of its playlist map, merging a
non-empty family of parsed disk playlists (each non-empty with unique
names, as `read_m3u8_files` guarantees) leaves the playlist map
non-empty and the selected name a key of the map; in particular the
fallback `keys().next().unwrap()` never fires on an empty map. -/
theorem merge_with_keeps_selection (sh : List String → List String)
    (rt : String → Option ID3) (q : PlaylistQueue) (disk : List (String × List String))
    (hsh : ∀ l, (sh l).length = l.length)
    (_hcurrent : containsKey q.playlists q.current_playlist = true)
    (hne : disk ≠ []) (hsongs : ∀ p ∈ disk, p.2 ≠ [])
    (hkeys : (disk.map Prod.fst).Nodup) :
    (q.merge_with sh rt disk).playlists ≠ [] ∧
      containsKey (q.merge_with sh rt disk).playlists
        (q.merge_with sh rt disk).current_playlist = true := by
  rcases hd : disk with _ | ⟨d0, rest⟩
  · exact absurd hd hne
  subst hd
  have hlen : ¬ (d0 :: rest).length = 0 := by simp
  obtain ⟨pl0, hfind0, hpl0⟩ := mergeWithStep_inserts_nonempty sh rt
    (q.playlists, q.id3_tags) d0 hsh (hsongs d0 (List.mem_cons_self _ _))
  have hrest : ∀ p ∈ rest, p.1 ≠ d0.1 := by
    intro p hp he
    have hnodup := hkeys
    rw [List.map_cons] at hnodup
    exact (List.nodup_cons.mp hnodup).1 (he ▸ List.mem_map_of_mem Prod.fst hp)
  have hfold : mapFind (mergeWithFold sh rt q (d0 :: rest)).1 d0.1 = some pl0 := by
    unfold mergeWithFold
    rw [List.foldl_cons, foldl_mergeWithStep_preserves sh rt rest _ d0.1 hrest]
    exact hfind0
  have hkept :
      mapFind (mergeWithKept (d0 :: rest) (mergeWithFold sh rt q (d0 :: rest)).1) d0.1 =
        some pl0 :=
    mergeWithKept_find _ _ _ _ hfold (by simp [containsKey]) hpl0
  have hkeptne : mergeWithKept (d0 :: rest) (mergeWithFold sh rt q (d0 :: rest)).1 ≠ [] :=
    mapFind_ne_nil _ _ _ hkept
  constructor
  · unfold PlaylistQueue.merge_with
    rw [if_neg hlen]
    exact hkeptne
  · unfold PlaylistQueue.merge_with
    rw [if_neg hlen]
    show containsKey (mergeWithKept (d0 :: rest) (mergeWithFold sh rt q (d0 :: rest)).1)
      (if containsKey (mergeWithKept (d0 :: rest) (mergeWithFold sh rt q (d0 :: rest)).1)
          q.current_playlist
       then q.current_playlist
       else
         match mergeWithKept (d0 :: rest) (mergeWithFold sh rt q (d0 :: rest)).1 with
         | [] => q.current_playlist
         | p :: _ => p.1) = true
    by_cases hc : containsKey
      (mergeWithKept (d0 :: rest) (mergeWithFold sh rt q (d0 :: rest)).1) q.current_playlist
    · rw [if_pos hc]; exact hc
    · rw [if_neg hc]
      rcases hk : mergeWithKept (d0 :: rest) (mergeWithFold sh rt q (d0 :: rest)).1
        with _ | ⟨p, t⟩
      · exact absurd hk hkeptne
      · simp [containsKey]

/-- C6 witness: the reconciliation theorem at a concrete registry and a
single parsed disk playlist. -/
theorem merge_with_keeps_selection_witness :
    containsKey q0.playlists q0.current_playlist = true ∧
    ((q0.merge_with id (fun _ => none) [("k", ["/music/y.mp3"])]).playlists ≠ [] ∧
      containsKey (q0.merge_with id (fun _ => none) [("k", ["/music/y.mp3"])]).playlists
        (q0.merge_with id (fun _ => none) [("k", ["/music/y.mp3"])]).current_playlist = true) :=
  ⟨rfl, merge_with_keeps_selection id (fun _ => none) q0 [("k", ["/music/y.mp3"])]
    (fun _ => rfl) rfl (by decide) (by decide) (by decide)⟩

/-- C9: when the special queue is pending, a `next-track` request whose
special entry does not resolve to an existing file (generation failed,
or the path is not a file) answers with the active playlist's current
track and advances that playlist, while the special queue — its
position and its last-served timestamp — is returned untouched; and the
special queue is rotated with its timer reset exactly when a resolved
entry is handed to the client. -/
theorem next_track_special_unresolved_frame (env : Env) (q : PlaylistQueue)
    (s : SpecialQueue) (pl : Playlist)
    (hq : mapFind q.playlists q.current_playlist = some pl)
    (hpend : s.is_special_pending env.now = true) :
    ((∀ p, SpecialQueue.current env.genClockOk s = some p → env.isFile p = false) →
      process_request env .nextTrack q s =
        ({ q with playlists := mapInsert q.playlists q.current_playlist pl.next },
         s, .track pl.current)) ∧
    (∀ p, SpecialQueue.current env.genClockOk s = some p → env.isFile p = true →
      process_request env .nextTrack q s = (q, (s.next).update_timer env.now, .track p)) := by
  constructor
  · intro hunres
    cases hcur : SpecialQueue.current env.genClockOk s with
    | none => simp [process_request, hpend, hcur, hq]
    | some p => simp [process_request, hpend, hcur, hq, hunres p hcur]
  · intro p hp hfile
    simp [process_request, hpend, hp, hfile]

/-- C9 witness: the frame theorem at a pending special queue whose
static entry does not exist on the fixture filesystem. -/
theorem next_track_special_unresolved_frame_witness :
    SpecialQueue.is_special_pending s1 env0.now = true ∧
    process_request env0 .nextTrack q0 s1 =
      ({ q0 with playlists := mapInsert q0.playlists q0.current_playlist plFix.next },
       s1, .track plFix.current) :=
  ⟨rfl, (next_track_special_unresolved_frame env0 q0 s1 plFix rfl rfl).1 (fun _ _ => rfl)⟩

/-- C10: for an existing playlist (paths are valid UTF-8 by
construction in the model), `preview-playlist` answers with exactly 5
entries — wrapping around playlists shorter than 5 — and afterwards the
playlist stored in the registry has exactly its original position and
song sequence; the special queue is untouched. -/
theorem preview_five_entries_restores (env : Env) (q : PlaylistQueue) (s : SpecialQueue)
    (name : String) (pl : Playlist)
    (hq : mapFind q.playlists name = some pl)
    (hpos : pl.position < pl.songs.length) :
    (process_request env (.previewPlaylist name) q s).1 =
      { q with playlists := mapInsert q.playlists name pl } ∧
    (process_request env (.previewPlaylist name) q s).2.1 = s ∧
    ∃ arr : List Json,
      (process_request env (.previewPlaylist name) q s).2.2 = .tracks (Json.arr arr) ∧
      arr.length = 5 := by
  obtain ⟨pos, songs⟩ := pl
  have hpos' : pos % songs.length = pos := Nat.mod_eq_of_lt hpos
  refine ⟨?_, ?_, ?_⟩
  · simp [process_request, hq, show List.range 5 = [0, 1, 2, 3, 4] from rfl,
      Playlist.next, Playlist.seek, Playlist.current, hpos']
  · simp [process_request, hq, show List.range 5 = [0, 1, 2, 3, 4] from rfl,
      Playlist.next, Playlist.seek, Playlist.current, hpos']
  · simp [process_request, hq, show List.range 5 = [0, 1, 2, 3, 4] from rfl,
      Playlist.next, Playlist.seek, Playlist.current, hpos']

/-- C10 witness: the preview theorem at the one-song fixture playlist
(shorter than the preview depth, so the preview wraps). -/
theorem preview_five_entries_restores_witness :
    mapFind q0.playlists "p" = some plFix ∧
    ((process_request env0 (.previewPlaylist "p") q0 s0).1 =
        { q0 with playlists := mapInsert q0.playlists "p" plFix } ∧
      (process_request env0 (.previewPlaylist "p") q0 s0).2.1 = s0 ∧
      ∃ arr : List Json,
        (process_request env0 (.previewPlaylist "p") q0 s0).2.2 = .tracks (Json.arr arr) ∧
        arr.length = 5) :=
  ⟨rfl, preview_five_entries_restores env0 q0 s0 "p" plFix rfl (by decide)⟩

/-- C7: request parsing classifies the first complete line exactly as
the spec-side classifier `classify_line` does — not a well-formed JSON
object or no string `command` field gives `InvalidRequest`, a
well-formed object with an unrecognized command gives `UnknownCommand`,
`switch-playlist`/`preview-playlist` with a missing or non-string
`playlist` field gives `InvalidParameter` — and in every case the
consumed byte count is exactly one past the first line feed. -/
theorem try_parse_request_consumes_line (jp : String → Option Json) (buffer : List Nat)
    (n : Nat) (h : buffer.findIdx? (fun b => b = 10) = some n) :
    try_parse_request jp buffer = some (classify_line jp (buffer.take n), n + 1) := by
  unfold try_parse_request classify_line
  rw [h]
  dsimp only
  cases hu : utf8Decode (buffer.take n) with
  | none => rfl
  | some line =>
    dsimp only
    cases hjp : jp line with
    | none => rfl
    | some doc =>
      dsimp only
      cases doc with
      | null => rfl
      | jbool b => rfl
      | num m => rfl
      | str s => rfl
      | arr xs => rfl
      | obj fields =>
        by_cases hk : Json.hasKey (.obj fields) "command" = true
        · simp only [Json.isObject, hk, Bool.and_true, Bool.not_true, Bool.false_eq_true,
            if_false, Bool.not_false]
          cases hcmd : (Json.idx (.obj fields) "command").asStr with
          | none => simp
          | some command =>
            by_cases h1 : command = "next-track"
            · subst h1; simp
            by_cases h2' : command = "list-playlists"
            · subst h2'; simp
            by_cases h3 : command = "get-playlist"
            · subst h3; simp
            by_cases h4 : command = "reload-playlists"
            · subst h4; simp
            by_cases h5 : command = "shuffle-playlists"
            · subst h5; simp
            by_cases h6 : command = "reload-tags"
            · subst h6; simp
            by_cases h7 : command = "switch-playlist"
            · subst h7
              by_cases hpk : Json.hasKey (.obj fields) "playlist" = true
              · cases hps : (Json.idx (.obj fields) "playlist").asStr <;> simp [hpk, hps]
              · have hpk' := Bool.eq_false_iff.mpr hpk
                have hnull := Json_idx_of_not_hasKey fields "playlist" hpk'
                simp [hpk', hnull, Json.asStr]
            by_cases h8 : command = "preview-playlist"
            · subst h8
              by_cases hpk : Json.hasKey (.obj fields) "playlist" = true
              · cases hps : (Json.idx (.obj fields) "playlist").asStr <;> simp [hpk, hps]
              · have hpk' := Bool.eq_false_iff.mpr hpk
                have hnull := Json_idx_of_not_hasKey fields "playlist" hpk'
                simp [hpk', hnull, Json.asStr]
            · simp [h1, h2', h3, h4, h5, h6, h7, h8]
        · have hk' := Bool.eq_false_iff.mpr hk
          have hnull := Json_idx_of_not_hasKey fields "command" hk'
          simp [Json.isObject, hk', hnull, Json.asStr]

/-- C7 witness: the classification theorem at the concrete
`get-playlist` request line. -/
theorem try_parse_request_consumes_line_witness :
    lineBytes0.findIdx? (fun b => b = 10) = some 26 ∧
    try_parse_request jpFix lineBytes0 = some (classify_line jpFix (lineBytes0.take 26), 27) :=
  ⟨rfl, try_parse_request_consumes_line jpFix lineBytes0 26 rfl⟩

/-- Any `.m3u8` directory entry whose stem is unreadable or whose parse
fails makes the whole entry loop of `read_m3u8_files` return an error,
whatever was accumulated before it (the `?` operator propagates). -/
theorem readLoop_malformed_error (isFile : String → Bool) (entries : List DirEntry)
    (e : DirEntry) (hfile : e.isEntryFile = true) (hext : e.ext = some "m3u8")
    (hbad : e.stem = none ∨
      ∃ msg, parse_m3u8_playlist isFile e.parentDir e.contents = .error msg) :
    e ∈ entries → ∀ acc, ∃ msg, readLoop isFile entries acc = .error msg := by
  induction entries with
  | nil => intro he; cases he
  | cons d rest ih =>
    intro he acc
    rcases List.mem_cons.mp he with rfl | hmem
    · have h1 : ¬ (¬ e.isEntryFile = true) := by simp [hfile]
      have h2 : ¬ (e.ext ≠ some "m3u8") := by simp [hext]
      rcases hbad with hstem | ⟨msg, hmsg⟩
      · exact ⟨"unreadable name", by unfold readLoop; rw [if_neg h1, if_neg h2, hstem]⟩
      · cases hstem : e.stem with
        | none =>
          exact ⟨"unreadable name", by unfold readLoop; rw [if_neg h1, if_neg h2, hstem]⟩
        | some nm =>
          exact ⟨msg, by unfold readLoop; rw [if_neg h1, if_neg h2, hstem, hmsg]⟩
    · by_cases hdf : d.isEntryFile = true
      · by_cases hde : d.ext = some "m3u8"
        · have h1 : ¬ (¬ d.isEntryFile = true) := by simp [hdf]
          have h2 : ¬ (d.ext ≠ some "m3u8") := by simp [hde]
          cases hdstem : d.stem with
          | none =>
            exact ⟨"unreadable name", by unfold readLoop; rw [if_neg h1, if_neg h2, hdstem]⟩
          | some nm =>
            cases hdp : parse_m3u8_playlist isFile d.parentDir d.contents with
            | error msg =>
              exact ⟨msg, by unfold readLoop; rw [if_neg h1, if_neg h2, hdstem, hdp]⟩
            | ok playlist =>
              obtain ⟨msg, hm⟩ := ih hmem (mapInsert acc nm playlist)
              exact ⟨msg, by
                unfold readLoop; rw [if_neg h1, if_neg h2, hdstem, hdp]; exact hm⟩
        · obtain ⟨msg, hm⟩ := ih hmem acc
          exact ⟨msg, by
            unfold readLoop
            rw [if_neg (by simp [hdf] : ¬ (¬ d.isEntryFile = true)), if_pos hde]
            exact hm⟩
      · obtain ⟨msg, hm⟩ := ih hmem acc
        exact ⟨msg, by unfold readLoop; rw [if_pos hdf]; exact hm⟩

/-- C3 amended: loading the playlist directory fails as a whole whenever
ANY `.m3u8` entry in it is malformed (unreadable name, bad entry path,
duplicate entry, empty or undecodable file): the parse error propagates
instead of the offending file being skipped.  Loading succeeds only when
every `.m3u8` entry parses and at least one exists; zero playlist files
is also an error. -/
theorem read_m3u8_malformed_aborts_scan (isFile : String → Bool) (entries : List DirEntry)
    (e : DirEntry) (he : e ∈ entries) (hfile : e.isEntryFile = true)
    (hext : e.ext = some "m3u8")
    (hbad : e.stem = none ∨
      ∃ msg, parse_m3u8_playlist isFile e.parentDir e.contents = .error msg) :
    (read_m3u8_files isFile (.ok entries)).isOk = false := by
  obtain ⟨msg, hm⟩ := readLoop_malformed_error isFile entries e hfile hext hbad he []
  simp [read_m3u8_files, hm, Except.isOk, Except.toBool]

/-- C3 witness: the propagation theorem applied to the directory holding
one valid and one malformed playlist file. -/
theorem read_m3u8_malformed_aborts_scan_witness :
    entryBad ∈ [entryGood, entryBad] ∧
    (read_m3u8_files fsC3 (.ok [entryGood, entryBad])).isOk = false :=
  ⟨by simp, read_m3u8_malformed_aborts_scan fsC3 [entryGood, entryBad] entryBad (by simp)
    rfl rfl (Or.inr ⟨"entry is a duplicate", rfl⟩)⟩
